import Mathlib

set_option maxHeartbeats 1000000

namespace BusTracker

/-! ### Frontend state model (src/unnamed/part_000)

The React client keeps a list of bus records fetched from the REST layer and
mutated by socket events.  A bus record carries the fields the component
reads: `_id`, `routeNumber`, `registrationNumber`, `from`/`to` labels,
optional `currentStop`, `nextStop`, `status` string, optional `eta`,
`currentPassengers` and `capacity`.  (`from` and `to` are Lean keywords,
hence the fields are spelled `from_` and `to_`.) -/

structure Bus where
  _id : String
  routeNumber : String
  registrationNumber : String
  from_ : String
  to_ : String
  currentStop : Option String
  nextStop : String
  status : String
  eta : Option String
  currentPassengers : Int
  capacity : Int
deriving DecidableEq

/-- The `busLocationUpdate` socket handler (part_000 lines 49-55):
`setBuses(prevBuses => prevBuses.map(bus => bus._id === updatedBus._id ? updatedBus : bus))`. -/
def busLocationUpdate (prevBuses : List Bus) (updatedBus : Bus) : List Bus :=
  prevBuses.map (fun bus => if bus._id == updatedBus._id then updatedBus else bus)

/-- Live Stats "Active Buses" counter (part_000 line 176): `buses.length`. -/
def activeBusesCount (buses : List Bus) : Nat :=
  buses.length

/-- Live Stats "On Time" counter (part_000 line 181):
`buses.filter(b => b.status === 'On Time').length`. -/
def onTimeCount (buses : List Bus) : Nat :=
  (buses.filter (fun b => b.status == "On Time")).length

/-- Live Stats "Delayed" counter (part_000 line 187):
`buses.filter(b => b.status === 'Delayed').length`. -/
def delayedCount (buses : List Bus) : Nat :=
  (buses.filter (fun b => b.status == "Delayed")).length

/-- `needle` occurs contiguously in `hay` starting at the head, i.e.
JavaScript's `hay.startsWith(needle)` on character lists. -/
def startsWithChars : List Char → List Char → Bool
  | _, [] => true
  | [], _ :: _ => false
  | h :: hs, n :: ns => h == n && startsWithChars hs ns

/-- JavaScript's `hay.includes(needle)` on character lists. -/
def containsChars : List Char → List Char → Bool
  | [], needle => needle.isEmpty
  | h :: hs, needle => startsWithChars (h :: hs) needle || containsChars hs needle

/-- JavaScript's `s.includes(sub)` for strings. -/
def jsIncludes (s sub : String) : Bool :=
  containsChars s.toList sub.toList

/-- The `filteredBuses` expression (part_000 lines 75-83).  A bus passes when
the route filter is empty or matches exactly, and the search query is empty
or is a (case-insensitive) substring of the route number, origin,
destination, or current stop.  `bus.currentStop && ...` is JavaScript
truthiness: an absent or empty `currentStop` short-circuits to false. -/
def filteredBuses (selectedRoute searchQuery : String) (buses : List Bus) : List Bus :=
  buses.filter (fun bus =>
    (selectedRoute == "" || bus.routeNumber == selectedRoute) &&
    (searchQuery == "" ||
      jsIncludes bus.routeNumber.toLower searchQuery.toLower ||
      jsIncludes bus.from_.toLower searchQuery.toLower ||
      jsIncludes bus.to_.toLower searchQuery.toLower ||
      (match bus.currentStop with
       | some cs => !(cs == "") && jsIncludes cs.toLower searchQuery.toLower
       | none => false)))

/-- A concrete on-time bus record, used to evaluate the theorems on closed
inputs. -/
def busA : Bus :=
  { _id := "b1", routeNumber := "52", registrationNumber := "DL1PC1234"
    from_ := "Anand Vihar", to_ := "Connaught Place", currentStop := some "Karol Bagh"
    nextStop := "Connaught Place", status := "On Time", eta := some "5 min"
    currentPassengers := 20, capacity := 40 }

/-- A concrete delayed bus record. -/
def busB : Bus :=
  { _id := "b2", routeNumber := "181", registrationNumber := "DL1PC5678"
    from_ := "Dwarka", to_ := "Nehru Place", currentStop := none
    nextStop := "Saket", status := "Delayed", eta := none
    currentPassengers := 35, capacity := 40 }

/-- A concrete bus record whose status is outside the closed enum. -/
def busC : Bus :=
  { _id := "b3", routeNumber := "764", registrationNumber := "DL1PC9012"
    from_ := "Najafgarh", to_ := "ISBT", currentStop := some "Tilak Nagar"
    nextStop := "ISBT", status := "Boarding", eta := some "2 min"
    currentPassengers := 10, capacity := 50 }

/-! ### Live-state dissemination engine

The spec's core (VehicleStateStore, UpdateIngestor, BroadcastHub,
SnapshotService) lives in the server modules `./routes/*` and `./models/*`
that `backend.js` imports; those files are not in the repository snapshot,
so the engine below is modelled from the spec (sections 3-5).  The spec's
single-writer serialization point is embedded by processing `apply` and
`subscribe` operations one at a time, in a total order, over an explicit
engine state. -/

/-- Modelled from the spec: the Vehicle record of section 3 (the server's
`models/Bus` is missing from the snapshot).  Every field other than the
identifier mirrors the optionality of the ingestion boundary (section 6);
the last-update wall-clock timestamp is outside the pure model. -/
structure Vehicle where
  identifier : String
  routeNumber : Option String
  from_ : Option String
  to_ : Option String
  currentStop : Option String
  nextStop : Option String
  status : Option String
  eta : Option String
  currentPassengers : Option Int
  capacity : Option Int
deriving DecidableEq

/-- Modelled from the spec: the structured update record accepted at the
ingestion boundary (section 6): all fields optional except that a missing
identifier is rejected. -/
structure RawUpdate where
  identifier : Option String
  routeNumber : Option String
  from_ : Option String
  to_ : Option String
  currentStop : Option String
  nextStop : Option String
  status : Option String
  eta : Option String
  currentPassengers : Option Int
  capacity : Option Int
deriving DecidableEq

/-- Modelled from the spec: the error taxonomy of section 7 that reaches the
ingestion caller. -/
inductive UpdateError
  | InvalidUpdate
  | NotFound
deriving DecidableEq

/-- Modelled from the spec: the closed status enum {OnTime, Delayed} of
section 3, using the string values the client renders. -/
def validStatus (s : String) : Bool :=
  s == "On Time" || s == "Delayed"

/-- Modelled from the spec: `count = max(0, min(count, capacity))`
(section 4.2). -/
def clamp (count capacity : Int) : Int :=
  max 0 (min count capacity)

/-- Modelled from the spec: clamping step of UpdateIngestor (section 4.2):
when passenger count and capacity are both present the count is clamped and
an anomaly flag is raised when the value changed; otherwise the update
passes through. -/
def normalize (u : RawUpdate) : RawUpdate × Bool :=
  match u.currentPassengers, u.capacity with
  | some c, some cap =>
      ({ u with currentPassengers := some (clamp c cap) }, decide (clamp c cap ≠ c))
  | _, _ => (u, false)

/-- Modelled from the spec: validation step of UpdateIngestor (section 4.2):
identifier present and non-empty; status, if present, one of the closed enum
values.  Returns the identifier on success. -/
def validateUpdate (u : RawUpdate) : Except UpdateError String :=
  match u.identifier with
  | none => .error .InvalidUpdate
  | some id =>
      if id == "" then .error .InvalidUpdate
      else
        match u.status with
        | some st => if validStatus st then .ok id else .error .InvalidUpdate
        | none => .ok id

/-- An update passes validation (a pure predicate: validation reads only the
update, never the store). -/
def isValidUpdate (u : RawUpdate) : Bool :=
  match validateUpdate u with
  | .ok _ => true
  | .error _ => false

/-- Partial-update field merge: a present field overwrites, an absent field
keeps the stored value (section 6: "a partial update merged onto existing
state"). -/
def mergeField (new old : Option α) : Option α :=
  match new with
  | some v => some v
  | none => old

/-- Modelled from the spec: merging a partial update onto an existing
vehicle; the identifier is immutable (section 3). -/
def mergeVehicle (v : Vehicle) (u : RawUpdate) : Vehicle :=
  { identifier := v.identifier
    routeNumber := mergeField u.routeNumber v.routeNumber
    from_ := mergeField u.from_ v.from_
    to_ := mergeField u.to_ v.to_
    currentStop := mergeField u.currentStop v.currentStop
    nextStop := mergeField u.nextStop v.nextStop
    status := mergeField u.status v.status
    eta := mergeField u.eta v.eta
    currentPassengers := mergeField u.currentPassengers v.currentPassengers
    capacity := mergeField u.capacity v.capacity }

/-- A vehicle implicitly registered from its first update starts with every
mutable field unset. -/
def emptyVehicle (id : String) : Vehicle :=
  { identifier := id, routeNumber := none, from_ := none, to_ := none
    currentStop := none, nextStop := none, status := none, eta := none
    currentPassengers := none, capacity := none }

/-- Modelled from the spec: DiffEvent (section 3) — Upsert or Remove, tagged
with the global, monotonically increasing per-store sequence number. -/
inductive DiffEventKind
  | Upsert (v : Vehicle)
  | Remove (id : String)
deriving DecidableEq

/-- A diff event: sequence number plus upsert/remove payload. -/
structure DiffEvent where
  seqNum : Nat
  kind : DiffEventKind
deriving DecidableEq

/-- Modelled from the spec: VehicleStateStore (section 4.1) — the ordered
registry of vehicle states plus the global sequence counter. -/
structure VehicleStateStore where
  vehicles : List Vehicle
  seq : Nat
deriving DecidableEq

/-- The empty store at sequence number 0. -/
def initStore : VehicleStateStore :=
  { vehicles := [], seq := 0 }

/-- Modelled from the spec: `get(id) -> Vehicle or NotFound`
(section 4.1). -/
def VehicleStateStore.get (s : VehicleStateStore) (id : String) : Option Vehicle :=
  s.vehicles.find? (fun v => v.identifier == id)

/-- Modelled from the spec: `getAll() -> ordered sequence of Vehicle`
(section 4.1). -/
def VehicleStateStore.getAll (s : VehicleStateStore) : List Vehicle :=
  s.vehicles

/-- Insert-or-replace by identifier, keeping registration order: an existing
entry is replaced in place, a new one is appended. -/
def upsert : List Vehicle → Vehicle → List Vehicle
  | [], v => [v]
  | w :: ws, v =>
      if w.identifier == v.identifier then v :: ws else w :: upsert ws v

/-- Modelled from the spec: `apply(update) -> (newSequenceNumber, DiffEvent)`
(section 4.1): merge the (already validated and clamped) update onto the
stored vehicle — creating it on first reference — bump the global sequence
number by exactly 1, and pair the write with the Upsert diff it generated. -/
def VehicleStateStore.applyUpdate (s : VehicleStateStore) (id : String)
    (u : RawUpdate) : VehicleStateStore × DiffEvent :=
  let newV := mergeVehicle ((s.get id).getD (emptyVehicle id)) u
  ({ vehicles := upsert s.vehicles newV, seq := s.seq + 1 },
   { seqNum := s.seq + 1, kind := .Upsert newV })

/-- Modelled from the spec: `ingest(rawUpdate) -> Result<DiffEvent,
UpdateError>` (section 4.2): validate, clamp, then delegate to
`VehicleStateStore.applyUpdate`; the Bool is the AnomalyClamped flag, which
never fails the call. -/
def ingest (s : VehicleStateStore) (u : RawUpdate) :
    Except UpdateError (VehicleStateStore × DiffEvent × Bool) :=
  match validateUpdate u with
  | .error e => .error e
  | .ok id =>
      let n := normalize u
      let r := s.applyUpdate id n.1
      .ok (r.1, r.2, n.2)

/-- Modelled from the spec: a Subscriber (section 3): the snapshot it was
handed at join time — the store contents and the sequence number they were
taken at — together with the diff stream delivered to it since. -/
structure Subscriber where
  sid : Nat
  snapshotSeq : Nat
  snapshot : List Vehicle
  received : List DiffEvent
deriving DecidableEq

/-- Modelled from the spec: the shared state behind the single-writer
serialization point (section 5): the store plus the BroadcastHub subscriber
registry. -/
structure Engine where
  store : VehicleStateStore
  subscribers : List Subscriber
deriving DecidableEq

/-- The engine before any operation. -/
def initEngine : Engine :=
  { store := initStore, subscribers := [] }

/-- Modelled from the spec: the operations that pass through the
serialization point — an `ingest` (i.e. `apply` + `publish`) or a
`subscribe` (snapshot-then-register, atomic relative to updates). -/
inductive Op
  | ingestOp (u : RawUpdate)
  | subscribeOp (sid : Nat)
deriving DecidableEq

/-- Modelled from the spec: `publish(DiffEvent)` (section 4.3) delivers the
event, in generation order, to every currently-registered subscriber. -/
def deliver (subs : List Subscriber) (d : DiffEvent) : List Subscriber :=
  subs.map (fun s => { s with received := s.received ++ [d] })

/-- Modelled from the spec: one pass through the serialization point.  A
valid update mutates the store and publishes its diff to all registered
subscribers as one indivisible step; an invalid update changes nothing and
publishes nothing; a subscribe captures the snapshot and registers the
subscriber as one logical step. -/
def stepOp (es : Engine) : Op → Engine
  | .ingestOp u =>
      match ingest es.store u with
      | .error _ => es
      | .ok (s', d, _) => { store := s', subscribers := deliver es.subscribers d }
  | .subscribeOp sid =>
      { es with
          subscribers := es.subscribers ++
            [{ sid := sid, snapshotSeq := es.store.seq,
               snapshot := es.store.getAll, received := [] }] }

/-- Run a serialized sequence of operations from a given engine state. -/
def runOps (es : Engine) (ops : List Op) : Engine :=
  ops.foldl stepOp es

/-- Run a sequence of raw updates against the store alone, skipping rejected
ones (the caller keeps the old state on an `UpdateError`). -/
def runStore (s : VehicleStateStore) (us : List RawUpdate) : VehicleStateStore :=
  us.foldl (fun s u =>
    match ingest s u with
    | .ok r => r.1
    | .error _ => s) s

/-- A subscriber replays one diff onto its local copy: an Upsert is an
insert-or-replace by identifier, a Remove drops the identifier. -/
def replayDiff (vs : List Vehicle) (d : DiffEvent) : List Vehicle :=
  match d.kind with
  | .Upsert v => upsert vs v
  | .Remove id => vs.filter (fun v => !(v.identifier == id))

/-- Replaying a received diff stream onto a received snapshot. -/
def replay (vs : List Vehicle) (ds : List DiffEvent) : List Vehicle :=
  ds.foldl replayDiff vs

/-- The per-subscriber consistency invariant maintained by the serialization
point: the received sequence numbers continue the snapshot sequence number
gaplessly, and replaying the received stream onto the received snapshot
reproduces the store contents. -/
def SubInv (store : VehicleStateStore) (sub : Subscriber) : Prop :=
  sub.received.map DiffEvent.seqNum =
    List.range' (sub.snapshotSeq + 1) sub.received.length ∧
  sub.snapshotSeq + sub.received.length = store.seq ∧
  replay sub.snapshot sub.received = store.getAll

/-- A concrete update whose passenger count exceeds its capacity by 5. -/
def uClamp : RawUpdate :=
  { identifier := some "v1", routeNumber := none, from_ := none, to_ := none
    currentStop := none, nextStop := none, status := some "On Time", eta := none
    currentPassengers := some 45, capacity := some 40 }

/-- A concrete minimal update that only names a fresh identifier. -/
def uNew : RawUpdate :=
  { identifier := some "v2", routeNumber := none, from_ := none, to_ := none
    currentStop := none, nextStop := none, status := none, eta := none
    currentPassengers := none, capacity := none }

/-- A concrete update carrying a status outside the closed enum. -/
def uUnknownStatus : RawUpdate :=
  { identifier := some "v3", routeNumber := none, from_ := none, to_ := none
    currentStop := none, nextStop := none, status := some "Unknown", eta := none
    currentPassengers := none, capacity := none }

/-- A concrete update with no identifier at all. -/
def uNoId : RawUpdate :=
  { identifier := none, routeNumber := some "52", from_ := none, to_ := none
    currentStop := none, nextStop := none, status := some "On Time", eta := none
    currentPassengers := none, capacity := none }

/-- The vehicle stored after ingesting `uClamp` into the empty store: the
passenger count is clamped to the capacity. -/
def vClamped : Vehicle :=
  { identifier := "v1", routeNumber := none, from_ := none, to_ := none
    currentStop := none, nextStop := none, status := some "On Time", eta := none
    currentPassengers := some 40, capacity := some 40 }

/-- A concrete serialized schedule: an update, a join racing into the middle
of the stream, a second update, and a rejected update. -/
def opsWitness : List Op :=
  [.ingestOp uClamp, .subscribeOp 7, .ingestOp uNew, .ingestOp uUnknownStatus]

/-- The subscriber state produced by running `opsWitness`. -/
def subWitness : Subscriber :=
  { sid := 7, snapshotSeq := 1, snapshot := [vClamped]
    received := [{ seqNum := 2, kind := .Upsert (emptyVehicle "v2") }] }

/-! ### Frontend theorems -/

/-- C8: the `busLocationUpdate` socket handler never deletes a vehicle — the
resulting list has the same length and the same identifiers in the same
order, every bus whose `_id` differs from the update's `_id` is unchanged,
and a bus matching the update's `_id` is replaced by the updated record. -/
theorem busLocationUpdate_never_deletes (prevBuses : List Bus) (updatedBus : Bus) :
    (busLocationUpdate prevBuses updatedBus).length = prevBuses.length ∧
    (busLocationUpdate prevBuses updatedBus).map Bus._id = prevBuses.map Bus._id ∧
    ∀ i : Nat, (busLocationUpdate prevBuses updatedBus)[i]? =
      (prevBuses[i]?).map
        (fun bus => if bus._id == updatedBus._id then updatedBus else bus) := by
  refine ⟨?_, ?_, ?_⟩
  · simp [busLocationUpdate]
  · induction prevBuses with
    | nil => rfl
    | cons b bs ih =>
        simp only [busLocationUpdate, List.map_cons] at ih ⊢
        refine congrArg₂ _ ?_ ih
        by_cases h : b._id == updatedBus._id
        · simp [h, beq_iff_eq.mp h]
        · simp [h]
  · intro i
    simp [busLocationUpdate, List.getElem?_map]

/-- Each bus contributes at most one to the On Time + Delayed tally. -/
theorem counts_le_length (buses : List Bus) :
    onTimeCount buses + delayedCount buses ≤ buses.length := by
  induction buses with
  | nil => simp [onTimeCount, delayedCount]
  | cons b bs ih =>
      simp only [onTimeCount, delayedCount, List.filter_cons] at ih ⊢
      by_cases h1 : b.status == "On Time"
      · have h2 : (b.status == "Delayed") = false := by
          have := beq_iff_eq.mp h1
          simp [this]
        simp [h1, h2]
        omega
      · by_cases h2 : b.status == "Delayed"
        · simp [h1, h2]
          omega
        · simp [h1, h2]
          omega

/-- C9: when every status is one of the two closed-enum values, the On Time
and Delayed counters partition the Active Buses counter; a list containing
any other status value makes the two counters sum to strictly less than the
list length. -/
theorem live_stats_partition (buses : List Bus) :
    ((∀ b ∈ buses, b.status = "On Time" ∨ b.status = "Delayed") →
      onTimeCount buses + delayedCount buses = activeBusesCount buses) ∧
    ((∃ b ∈ buses, b.status ≠ "On Time" ∧ b.status ≠ "Delayed") →
      onTimeCount buses + delayedCount buses < activeBusesCount buses) := by
  constructor
  · intro hall
    induction buses with
    | nil => rfl
    | cons b bs ih =>
        have hb := hall b (List.mem_cons_self b bs)
        have hbs := ih (fun x hx => hall x (List.mem_cons_of_mem b hx))
        simp only [onTimeCount, delayedCount, activeBusesCount,
          List.filter_cons, List.length_cons] at hbs ⊢
        rcases hb with h | h
        · have h1 : (b.status == "On Time") = true := by simp [h]
          have h2 : (b.status == "Delayed") = false := by simp [h]
          simp [h1, h2]
          omega
        · have h1 : (b.status == "On Time") = false := by simp [h]
          have h2 : (b.status == "Delayed") = true := by simp [h]
          simp [h1, h2]
          omega
  · intro hex
    induction buses with
    | nil => simp at hex
    | cons b bs ih =>
        rcases hex with ⟨x, hx, hxs⟩
        rcases List.mem_cons.mp hx with rfl | hxbs
        · have h1 : (x.status == "On Time") = false := by simp [hxs.1]
          have h2 : (x.status == "Delayed") = false := by simp [hxs.2]
          have hle := counts_le_length bs
          simp only [onTimeCount, delayedCount, activeBusesCount] at hle ⊢
          simp [List.filter_cons, h1, h2]
          omega
        · have hlt := ih ⟨x, hxbs, hxs⟩
          simp only [onTimeCount, delayedCount, activeBusesCount,
            List.filter_cons, List.length_cons] at hlt ⊢
          by_cases h1 : b.status == "On Time"
          · have h2 : (b.status == "Delayed") = false := by
              have := beq_iff_eq.mp h1
              simp [this]
            simp [h1, h2]
            omega
          · by_cases h2 : b.status == "Delayed"
            · simp [h1, h2]
              omega
            · simp [h1, h2]
              omega

/-- Witness for C9 at concrete inputs: a two-bus list with closed-enum
statuses partitions exactly, and a one-bus list with status "Boarding" sums
to strictly less than its length. -/
theorem live_stats_partition_witness :
    (onTimeCount [busA, busB] + delayedCount [busA, busB] =
      activeBusesCount [busA, busB]) ∧
    (onTimeCount [busC] + delayedCount [busC] < activeBusesCount [busC]) :=
  ⟨(live_stats_partition [busA, busB]).1 (by decide),
   (live_stats_partition [busC]).2 (by decide)⟩

/-- C10: the filtered bus list is a subsequence of the full list, and with
an empty search query and an empty selected route it equals the full
list. -/
theorem filteredBuses_subsequence (selectedRoute searchQuery : String)
    (buses : List Bus) :
    List.Sublist (filteredBuses selectedRoute searchQuery buses) buses ∧
    filteredBuses "" "" buses = buses := by
  constructor
  · exact List.filter_sublist buses
  · simp [filteredBuses]

/-! ### Engine theorems -/

theorem validate_missing_id {u : RawUpdate} (h : u.identifier = none) :
    validateUpdate u = .error .InvalidUpdate := by
  simp [validateUpdate, h]

theorem validate_empty_id {u : RawUpdate} (h : u.identifier = some "") :
    validateUpdate u = .error .InvalidUpdate := by
  simp [validateUpdate, h]

theorem validate_bad_status {u : RawUpdate} {st : String}
    (hst : u.status = some st) (hbad : validStatus st = false) :
    validateUpdate u = .error .InvalidUpdate := by
  unfold validateUpdate
  cases hid : u.identifier with
  | none => rfl
  | some id =>
      by_cases he : id == ""
      · simp [he]
      · simp [he, hst, hbad]

theorem validate_ok {u : RawUpdate} {id : String}
    (hid : u.identifier = some id) (hne : ¬ id = "")
    (hstat : ∀ st, u.status = some st → validStatus st = true) :
    validateUpdate u = .ok id := by
  unfold validateUpdate
  rw [hid]
  have he : (id == "") = false := by simp [hne]
  cases hst : u.status with
  | none => simp [he]
  | some st => simp [he, hstat st hst]

theorem ingest_of_validate_err {s : VehicleStateStore} {u : RawUpdate}
    {e : UpdateError} (h : validateUpdate u = .error e) :
    ingest s u = .error e := by
  simp [ingest, h]

theorem ingest_ok_elim {s s' : VehicleStateStore} {u : RawUpdate}
    {d : DiffEvent} {a : Bool} (h : ingest s u = .ok (s', d, a)) :
    ∃ v : Vehicle,
      s' = { vehicles := upsert s.vehicles v, seq := s.seq + 1 } ∧
      d = { seqNum := s.seq + 1, kind := .Upsert v } := by
  unfold ingest at h
  cases hv : validateUpdate u with
  | error e => rw [hv] at h; exact absurd h (by simp)
  | ok id =>
      rw [hv] at h
      simp only [VehicleStateStore.applyUpdate, Except.ok.injEq,
        Prod.mk.injEq] at h
      exact ⟨mergeVehicle ((s.get id).getD (emptyVehicle id)) (normalize u).1,
        h.1.symm, h.2.1.symm⟩

/-- C2: starting from the empty store, after any serialized sequence of apply
calls the global sequence number equals the number of successfully applied
updates — each successful apply adds exactly 1 regardless of which vehicle
was touched, so the numbering is monotonic and gapless. -/
theorem seq_counts_successful_applies (us : List RawUpdate) :
    (runStore initStore us).seq = (us.filter isValidUpdate).length := by
  suffices h : ∀ s : VehicleStateStore, ∀ us : List RawUpdate,
      (runStore s us).seq = s.seq + (us.filter isValidUpdate).length by
    simpa [initStore] using h initStore us
  intro s us
  induction us generalizing s with
  | nil => simp [runStore]
  | cons u us ih =>
      cases hv : validateUpdate u with
      | error e =>
          have hval : isValidUpdate u = false := by simp [isValidUpdate, hv]
          have hi : ingest s u = .error e := ingest_of_validate_err hv
          simpa [runStore, hi, List.filter_cons, hval] using ih s
      | ok id =>
          have hval : isValidUpdate u = true := by simp [isValidUpdate, hv]
          have hstep : runStore s (u :: us) =
              runStore (s.applyUpdate id (normalize u).1).1 us := by
            simp [runStore, ingest, hv]
          rw [hstep, ih]
          simp [VehicleStateStore.applyUpdate, List.filter_cons, hval]
          omega

/-- C3: an update whose status field is present but outside the closed enum
is rejected with `InvalidUpdate`; the engine state — store and every
subscriber stream — is completely unchanged, so no diff event is emitted. -/
theorem unknown_status_rejected (es : Engine) (u : RawUpdate) (st : String)
    (hst : u.status = some st) (hbad : validStatus st = false) :
    ingest es.store u = .error .InvalidUpdate ∧
    stepOp es (.ingestOp u) = es := by
  have hi : ingest es.store u = .error .InvalidUpdate :=
    ingest_of_validate_err (validate_bad_status hst hbad)
  exact ⟨hi, by simp [stepOp, hi]⟩

/-- Witness for C3: ingesting status "Unknown" into the initial engine is
rejected and leaves the engine untouched. -/
theorem unknown_status_rejected_witness :
    ingest initEngine.store uUnknownStatus = .error .InvalidUpdate ∧
    stepOp initEngine (.ingestOp uUnknownStatus) = initEngine :=
  unknown_status_rejected initEngine uUnknownStatus "Unknown" rfl (by decide)

/-- C6: an update whose identifier is missing or empty is rejected with
`InvalidUpdate` before the store is touched: the engine state — store and
every subscriber stream — is unchanged, so no diff event is emitted. -/
theorem missing_identifier_rejected (es : Engine) (u : RawUpdate)
    (h : u.identifier = none ∨ u.identifier = some "") :
    ingest es.store u = .error .InvalidUpdate ∧
    stepOp es (.ingestOp u) = es := by
  have hv : validateUpdate u = .error .InvalidUpdate := by
    rcases h with h | h
    · exact validate_missing_id h
    · exact validate_empty_id h
  have hi : ingest es.store u = .error .InvalidUpdate :=
    ingest_of_validate_err hv
  exact ⟨hi, by simp [stepOp, hi]⟩

/-- Witness for C6: ingesting an identifier-less update into the initial
engine is rejected and leaves the engine untouched. -/
theorem missing_identifier_rejected_witness :
    ingest initEngine.store uNoId = .error .InvalidUpdate ∧
    stepOp initEngine (.ingestOp uNoId) = initEngine :=
  missing_identifier_rejected initEngine uNoId (Or.inl rfl)

theorem find?_upsert_self (vs : List Vehicle) (v : Vehicle) :
    (upsert vs v).find? (fun w => w.identifier == v.identifier) = some v := by
  induction vs with
  | nil => simp [upsert, List.find?]
  | cons w ws ih =>
      by_cases h : w.identifier == v.identifier
      · simp [upsert, h, List.find?]
      · simp only [upsert, h, if_false, Bool.false_eq_true]
        exact (List.find?_cons_of_neg (upsert ws v) (by simpa using h)).trans ih

theorem get_identifier {s : VehicleStateStore} {id : String} {w : Vehicle}
    (h : s.get id = some w) : w.identifier = id := by
  unfold VehicleStateStore.get at h
  have h2 := List.find?_some h
  simpa using h2

theorem getD_identifier (s : VehicleStateStore) (id : String) :
    ((s.get id).getD (emptyVehicle id)).identifier = id := by
  cases hg : s.get id with
  | none => rfl
  | some w => simpa using get_identifier hg

theorem mergeVehicle_identifier (v : Vehicle) (u : RawUpdate) :
    (mergeVehicle v u).identifier = v.identifier := rfl

theorem ingest_ok_of_valid {s : VehicleStateStore} {u : RawUpdate} {id : String}
    (hv : validateUpdate u = .ok id) :
    ingest s u = .ok ((s.applyUpdate id (normalize u).1).1,
      (s.applyUpdate id (normalize u).1).2, (normalize u).2) := by
  simp [ingest, hv]

theorem get_applyUpdate_self (s : VehicleStateStore) (id : String)
    (u : RawUpdate) :
    (s.applyUpdate id u).1.get id =
      some (mergeVehicle ((s.get id).getD (emptyVehicle id)) u) := by
  have hgen : ∀ nv : Vehicle, nv.identifier = id →
      (upsert s.vehicles nv).find? (fun w => w.identifier == id) = some nv := by
    intro nv hident
    rw [← hident]
    exact find?_upsert_self s.vehicles nv
  show (upsert s.vehicles (mergeVehicle ((s.get id).getD (emptyVehicle id)) u)).find?
      (fun w => w.identifier == id) =
    some (mergeVehicle ((s.get id).getD (emptyVehicle id)) u)
  exact hgen _ (by rw [mergeVehicle_identifier, getD_identifier])

/-- C4: an otherwise-valid update carrying both a passenger count and a
capacity is applied, not rejected: the stored passenger count is
`max 0 (min count capacity)`, the emitted diff carries the clamped vehicle,
and the anomaly flag is raised exactly when clamping changed the value. -/
theorem passenger_count_clamped (s : VehicleStateStore) (u : RawUpdate)
    (id : String) (c cap : Int)
    (hid : u.identifier = some id) (hne : ¬ id = "")
    (hstat : ∀ st, u.status = some st → validStatus st = true)
    (hc : u.currentPassengers = some c) (hcap : u.capacity = some cap) :
    ∃ s' d v, ingest s u = .ok (s', d, decide (clamp c cap ≠ c)) ∧
      s'.get id = some v ∧
      v.currentPassengers = some (clamp c cap) ∧
      d.kind = .Upsert v := by
  have hv : validateUpdate u = .ok id := validate_ok hid hne hstat
  have hn : normalize u =
      ({ u with currentPassengers := some (clamp c cap) },
        decide (clamp c cap ≠ c)) := by
    simp [normalize, hc, hcap]
  refine ⟨(s.applyUpdate id (normalize u).1).1, (s.applyUpdate id (normalize u).1).2,
    mergeVehicle ((s.get id).getD (emptyVehicle id)) (normalize u).1, ?_, ?_, ?_, ?_⟩
  · rw [ingest_ok_of_valid hv, hn]
  · exact get_applyUpdate_self s id (normalize u).1
  · rw [hn]
    rfl
  · rfl

/-- Witness for C4: ingesting passenger count 45 with capacity 40 into the
empty store is accepted with the anomaly flag set and stores count 40. -/
theorem passenger_count_clamped_witness :
    ∃ s' d v, ingest initStore uClamp = .ok (s', d, true) ∧
      s'.get "v1" = some v ∧
      v.currentPassengers = some 40 ∧
      d.kind = .Upsert v := by
  have h := passenger_count_clamped initStore uClamp "v1" 45 40 rfl
    (by decide)
    (by intro st hst; rw [show st = "On Time" by
          simpa [uClamp] using hst.symm]; decide)
    rfl rfl
  simpa [clamp] using h

/-- C5: a valid update whose identifier is not yet in the store implicitly
registers a new Vehicle: after the apply, lookup of that identifier succeeds
and the vehicle appears in the full state listing. -/
theorem implicit_registration (s : VehicleStateStore) (u : RawUpdate)
    (id : String)
    (hid : u.identifier = some id) (hne : ¬ id = "")
    (hstat : ∀ st, u.status = some st → validStatus st = true)
    (_hnew : s.get id = none) :
    ∃ s' d a v, ingest s u = .ok (s', d, a) ∧
      s'.get id = some v ∧ v ∈ s'.getAll ∧ v.identifier = id := by
  have hv : validateUpdate u = .ok id := validate_ok hid hne hstat
  refine ⟨(s.applyUpdate id (normalize u).1).1, (s.applyUpdate id (normalize u).1).2,
    (normalize u).2, mergeVehicle ((s.get id).getD (emptyVehicle id)) (normalize u).1,
    ingest_ok_of_valid hv, get_applyUpdate_self s id (normalize u).1, ?_, ?_⟩
  · exact List.mem_of_find?_eq_some (get_applyUpdate_self s id (normalize u).1)
  · rw [mergeVehicle_identifier, getD_identifier]

/-- Witness for C5: ingesting a first update for identifier "v2" into the
empty store registers a vehicle found by lookup and listed by getAll. -/
theorem implicit_registration_witness :
    ∃ s' d a v, ingest initStore uNew = .ok (s', d, a) ∧
      s'.get "v2" = some v ∧ v ∈ s'.getAll ∧ v.identifier = "v2" :=
  implicit_registration initStore uNew "v2" rfl (by decide)
    (by intro st hst; simp [uNew] at hst) rfl

theorem mergeField_idem (new old : Option α) :
    mergeField new (mergeField new old) = mergeField new old := by
  cases new <;> rfl

theorem mergeVehicle_idem (v : Vehicle) (u : RawUpdate) :
    mergeVehicle (mergeVehicle v u) u = mergeVehicle v u := by
  simp [mergeVehicle, mergeField_idem]

theorem upsert_upsert_same (vs : List Vehicle) (v : Vehicle) :
    upsert (upsert vs v) v = upsert vs v := by
  induction vs with
  | nil => simp [upsert]
  | cons w ws ih =>
      by_cases h : w.identifier == v.identifier
      · simp [upsert, h]
      · simp only [upsert, h, if_false, Bool.false_eq_true]
        rw [ih]

/-- C7: applying the same otherwise-valid update twice produces two diff
events — both calls succeed, with consecutive sequence numbers — but the
full state read (`getAll`) after both applications equals the state after
one: the state update is idempotent while event emission is
update-triggered. -/
theorem double_apply_idempotent (s : VehicleStateStore) (u : RawUpdate)
    (id : String)
    (hid : u.identifier = some id) (hne : ¬ id = "")
    (hstat : ∀ st, u.status = some st → validStatus st = true) :
    ∃ s₁ d₁ a₁ s₂ d₂ a₂,
      ingest s u = .ok (s₁, d₁, a₁) ∧
      ingest s₁ u = .ok (s₂, d₂, a₂) ∧
      d₁.seqNum = s.seq + 1 ∧ d₂.seqNum = s.seq + 2 ∧
      s₂.getAll = s₁.getAll := by
  have hv : validateUpdate u = .ok id := validate_ok hid hne hstat
  have h1 := ingest_ok_of_valid (s := s) hv
  have h2 := ingest_ok_of_valid (s := (s.applyUpdate id (normalize u).1).1) hv
  refine ⟨_, _, _, _, _, _, h1, h2, rfl, rfl, ?_⟩
  show (((s.applyUpdate id (normalize u).1).1.applyUpdate id (normalize u).1).1).getAll =
    ((s.applyUpdate id (normalize u).1).1).getAll
  have hget := get_applyUpdate_self s id (normalize u).1
  show upsert (upsert s.vehicles _) _ = upsert s.vehicles _
  rw [hget]
  simp only [Option.getD_some]
  rw [mergeVehicle_idem]
  exact upsert_upsert_same s.vehicles _

/-- Witness for C7: ingesting `uClamp` twice into the empty store yields two
diffs with sequence numbers 1 and 2 and the same `getAll` after both. -/
theorem double_apply_idempotent_witness :
    ∃ s₁ d₁ a₁ s₂ d₂ a₂,
      ingest initStore uClamp = .ok (s₁, d₁, a₁) ∧
      ingest s₁ uClamp = .ok (s₂, d₂, a₂) ∧
      d₁.seqNum = 1 ∧ d₂.seqNum = 2 ∧
      s₂.getAll = s₁.getAll :=
  double_apply_idempotent initStore uClamp "v1" rfl (by decide)
    (by intro st hst; rw [show st = "On Time" by
          simpa [uClamp] using hst.symm]; decide)

theorem range'_snoc (a n : Nat) :
    List.range' a (n + 1) = List.range' a n ++ [a + n] := by
  induction n generalizing a with
  | zero => simp [List.range']
  | succ n ih =>
      rw [List.range'_succ, ih (a + 1), List.range'_succ]
      simp
      omega

theorem stepOp_subinv {es : Engine} (op : Op)
    (h : ∀ sub ∈ es.subscribers, SubInv es.store sub) :
    ∀ sub ∈ (stepOp es op).subscribers, SubInv (stepOp es op).store sub := by
  cases op with
  | subscribeOp sid =>
      intro sub hsub
      simp only [stepOp] at hsub ⊢
      rcases List.mem_append.mp hsub with hold | hnew2
      · exact h sub hold
      · have heq : sub =
            { sid := sid, snapshotSeq := es.store.seq,
              snapshot := es.store.getAll, received := [] } := by
          simpa using hnew2
        subst heq
        exact ⟨rfl, rfl, rfl⟩
  | ingestOp u =>
      cases hi : ingest es.store u with
      | error e =>
          intro sub hsub
          simp only [stepOp, hi] at hsub ⊢
          exact h sub hsub
      | ok r =>
          obtain ⟨s', d, a⟩ := r
          obtain ⟨v, hs', hd⟩ := ingest_ok_elim hi
          intro sub hsub
          simp only [stepOp, hi, deliver] at hsub ⊢
          obtain ⟨old, hold, heq⟩ := List.mem_map.mp hsub
          obtain ⟨h1, h2, h3⟩ := h old hold
          subst heq
          have hdseq : d.seqNum = es.store.seq + 1 := by rw [hd]
          refine ⟨?_, ?_, ?_⟩
          · show (old.received ++ [d]).map DiffEvent.seqNum =
              List.range' (old.snapshotSeq + 1) (old.received ++ [d]).length
            rw [List.map_append, h1, List.length_append]
            simp only [List.map_cons, List.map_nil, List.length_cons,
              List.length_nil]
            rw [range'_snoc]
            have hx : d.seqNum = old.snapshotSeq + 1 + old.received.length := by
              omega
            rw [hx]
          · show old.snapshotSeq + (old.received ++ [d]).length = s'.seq
            have hseq : s'.seq = es.store.seq + 1 := by rw [hs']
            simp only [List.length_append, List.length_cons, List.length_nil]
            omega
          · show replay old.snapshot (old.received ++ [d]) = s'.getAll
            have hr : replay old.snapshot (old.received ++ [d]) =
                replayDiff (replay old.snapshot old.received) d := by
              simp [replay, List.foldl_append]
            rw [hr, h3, hd]
            show upsert es.store.getAll v = s'.getAll
            rw [hs']
            rfl

theorem runOps_subinv {es : Engine} (ops : List Op)
    (h : ∀ sub ∈ es.subscribers, SubInv es.store sub) :
    ∀ sub ∈ (runOps es ops).subscribers, SubInv (runOps es ops).store sub := by
  induction ops generalizing es with
  | nil => exact h
  | cons op ops ih => exact ih (stepOp_subinv op h)

/-- C1: in every serialized run from the initial engine — updates freely
interleaved with joins, so a join may race into the middle of a stream of
applies — every subscriber holds a snapshot at some sequence number N and
has received the diffs numbered exactly N+1, N+2, ... up to the store's
final sequence number, with none lost, duplicated, or out of publish order,
and replaying the received stream onto the received snapshot reconstructs
exactly the final store state. -/
theorem subscriber_join_consistency (ops : List Op) (sub : Subscriber)
    (hsub : sub ∈ (runOps initEngine ops).subscribers) :
    sub.received.map DiffEvent.seqNum =
      List.range' (sub.snapshotSeq + 1) sub.received.length ∧
    sub.snapshotSeq + sub.received.length = (runOps initEngine ops).store.seq ∧
    replay sub.snapshot sub.received = (runOps initEngine ops).store.getAll := by
  have h0 : ∀ s ∈ initEngine.subscribers, SubInv initEngine.store s := by
    intro s hs
    simp [initEngine] at hs
  exact runOps_subinv ops h0 sub hsub

/-- Witness for C1: in the concrete schedule `opsWitness` the subscriber
joins at sequence number 1, receives exactly the diff numbered 2, and
replaying it onto its snapshot gives the final store contents. -/
theorem subscriber_join_consistency_witness :
    subWitness ∈ (runOps initEngine opsWitness).subscribers ∧
    (subWitness.received.map DiffEvent.seqNum =
      List.range' (subWitness.snapshotSeq + 1) subWitness.received.length ∧
    subWitness.snapshotSeq + subWitness.received.length =
      (runOps initEngine opsWitness).store.seq ∧
    replay subWitness.snapshot subWitness.received =
      (runOps initEngine opsWitness).store.getAll) :=
  ⟨by decide, subscriber_join_consistency opsWitness subWitness (by decide)⟩

end BusTracker
